import Mathlib

set_option maxHeartbeats 1000000

/-!
Verification development for `src/hellomeme/models/hm_control.py`.

The file defines five ControlNet variant classes (`HMControlNet`,
`HMControlNet2`, `HMV2ControlNet`, `HMV3ControlNet`, `HMV2ControlNet2`).
Each `forward` method is a single linear pass building tensors with
framework primitives (einops `rearrange`, `F.interpolate`, `nn.Conv2d`,
`Timesteps`, `TimestepEmbedding`, `torch.cat`, `SKCrossAttention`) and
returning an insertion-ordered dictionary of named feature maps.

We embed the forward passes symbolically: each tensor value is a dataflow
term (`Expr`) tagged with a fresh allocation identifier (so that Python
reference identity of tensor objects is visible as identifier equality),
and every framework call is appended to an operation trace (so that
propagation of framework-raised exceptions can be stated).  A separate
shape-level model captures tensor shapes, and a module-inventory model
captures the sub-modules registered by each `__init__`.
-/

/-- Sub-modules (learned layers) owned by the ControlNet classes, named after
the attribute names assigned in the `__init__` methods of
`hm_control.py` (`self.conv_in`, `self.exp_embedding`, `self.exp_proj`,
`self.face_proj`, `self.emo_proj`, `self.emo_embedding`,
`self.conv_up2_down0`, `self.conv_up1_down1`). -/
inductive SubMod
  | convIn
  | convUp2Down0
  | convUp1Down1
  | expEmbedding
  | emoEmbedding
  | expProj
  | faceProj
  | emoProj
  deriving DecidableEq, Repr

/-- The `einops.rearrange` patterns appearing literally in `hm_control.py`.
Each constructor name transliterates one pattern string. -/
inductive RPat
  | b_c_f_h_w__bf_c_h_w   -- "b c f h w -> (b f) c h w"
  | b_f_c__bfc            -- "b f c -> (b f c)"
  | bfc_d__b_f_c_d        -- "(b f c) d -> b f c d"
  | b_f_c_d__bf_c_d       -- "b f c d -> (b f) c d"
  | bf_c_d__b_f_c_d       -- "(b f) c d -> b f c d"
  | bf_c_h_w__b_c_f_h_w   -- "(b f) c h w -> b c f h w"
  deriving DecidableEq, Repr

/-- Symbolic dataflow term for a tensor value produced in a forward pass.
Leaves are the caller-supplied input tensors; the other constructors are
the framework primitives invoked by `hm_control.py`:
`rearrange`, `F.interpolate` (to `(h // scale_factor, w // scale_factor)`),
application of a learned sub-module, multiplication by a Python float
constant (`* 500.`, `* 20.`), `.to(dtype=...)`, `torch.cat(..., dim=2)`,
and application of the `idx`-th `SKCrossAttention` block in
`self.blocks_down` to a visual feature map and a driving embedding. -/
inductive Expr
  | input (name : String)
  | rearrange (pat : RPat) (e : Expr)
  | interpolate (e : Expr)
  | applyMod (m : SubMod) (e : Expr)
  | scale (k : Nat) (e : Expr)
  | toDtype (e : Expr)
  | cat (a b : Expr)
  | block (idx : Nat) (x de : Expr)
  deriving DecidableEq, Repr

/-- Whether the dataflow term applies the given sub-module anywhere. -/
def Expr.usesMod : Expr → SubMod → Bool
  | .input _, _ => false
  | .rearrange _ e, m => e.usesMod m
  | .interpolate e, m => e.usesMod m
  | .applyMod m' e, m => m' == m || e.usesMod m
  | .scale _ e, m => e.usesMod m
  | .toDtype e, m => e.usesMod m
  | .cat a b, m => a.usesMod m || b.usesMod m
  | .block _ a b, m => a.usesMod m || b.usesMod m

/-- The sinusoidal timestep encoders: the `Timesteps` instances
(`self.exp_embedding` in four classes, `self.emo_embedding` in
`HMV3ControlNet`). -/
def SubMod.isSinEncoder : SubMod → Bool
  | .expEmbedding => true
  | .emoEmbedding => true
  | _ => false

/-- Whether a term has the shape `rearrange(x * k, "b f c -> (b f c)")`:
the flattening rearrange of an input multiplied by the constant `k`.
This is the shape both sinusoidal encoders receive in `hm_control.py`. -/
def Expr.isScaledCoeff (k : Nat) : Expr → Bool
  | .rearrange .b_f_c__bfc (.scale j _) => j == k
  | _ => false

/-- Checks that every application of a sinusoidal timestep encoder in the
term receives, as its immediate argument, the rearrangement
`"b f c -> (b f c)"` of the input multiplied by the constant `k` --- i.e.
that scaling by `k` happens before the sinusoidal embedding step. -/
def Expr.encodersScaled (k : Nat) : Expr → Bool
  | .input _ => true
  | .rearrange _ e => e.encodersScaled k
  | .interpolate e => e.encodersScaled k
  | .applyMod m e => (!m.isSinEncoder || e.isScaledCoeff k) && e.encodersScaled k
  | .scale _ e => e.encodersScaled k
  | .toDtype e => e.encodersScaled k
  | .cat a b => a.encodersScaled k && b.encodersScaled k
  | .block _ a b => a.encodersScaled k && b.encodersScaled k

/-- Exceptions that a forward call can surface.  `typeError` models the
`TypeError` Python raises when `emo_embedding * 20.` is evaluated with
`emo_embedding = None`; `frameworkError` stands for any exception raised
inside a framework kernel (shape mismatch, dtype mismatch, ...). -/
inductive PyErr
  | typeError
  | frameworkError
  deriving DecidableEq, Repr

/-- Keys of the returned dictionaries.  Each constructor corresponds to one
of the f-string key families in `hm_control.py`. -/
inductive RKey
  | down (i : Nat)     -- f'down_{idx}'     (HMControlNet)
  | down2 (i : Nat)    -- f'down2_{idx}'    (HMControlNet2)
  | upV2 (i : Nat)     -- f'up_v2_{...}'    (HMV2ControlNet)
  | up3 (i : Nat)      -- f'up3_{up_idx}'   (HMV3ControlNet)
  | down3 (i : Nat)    -- f'down3_{...}'    (HMV3ControlNet)
  | up2V2 (i : Nat)    -- f'up2_v2_{...}'   (HMV2ControlNet2)
  deriving DecidableEq, Repr

/-- The string each key renders to in the Python dictionary. -/
def RKey.render : RKey → String
  | .down i => "down_" ++ toString i
  | .down2 i => "down2_" ++ toString i
  | .upV2 i => "up_v2_" ++ toString i
  | .up3 i => "up3_" ++ toString i
  | .down3 i => "down3_" ++ toString i
  | .up2V2 i => "up2_v2_" ++ toString i

/-- A tensor value: its dataflow term together with the allocation
identifier of the tensor object holding it.  Two dictionary entries are
reference-identical in Python exactly when they carry the same
identifier. -/
abbrev TV := Expr × Nat

/-- Interpreter state threaded through a forward call: the next fresh
tensor identifier, the trace of framework operations issued so far, and
the module's learned parameters (an opaque value of type `P`; the forward
code only ever reads them, so we just thread the value through). -/
structure St (P : Type) where
  cnt : Nat
  tr : List Expr
  params : P

/-- Issue one framework operation: allocate a fresh tensor object holding
the term `e` and record the operation in the trace. -/
def fresh {P : Type} (e : Expr) (s : St P) : TV × St P :=
  ((e, s.cnt), ⟨s.cnt + 1, s.tr ++ [e], s.params⟩)

/-- The output-building loop shared by `HMControlNet.forward` and
`HMControlNet2.forward` (ascending keys):

```
ret_dict = {}
for idx, block in enumerate(self.blocks_down):
    embedding = block(embedding, drive_embedding)
    ret_dict[f'..._{idx}'] = rearrange(embedding, "(b f) c h w -> b c f h w", f=video_length)
```

`k` is the number of iterations remaining and `idx` the current loop
index; the initial call is `ascGo kf de n 0 embedding s`. -/
def ascGo {P : Type} (kf : Nat → RKey) (de : Expr) :
    (k : Nat) → (idx : Nat) → Expr → St P → List (RKey × TV) × St P
  | 0, _, _, s => ([], s)
  | k + 1, idx, emb, s =>
      let (embN, s) := fresh (.block idx emb de) s
      let (e1, s) := fresh (.rearrange .bf_c_h_w__b_c_f_h_w embN.1) s
      let (rest, s) := ascGo kf de k (idx + 1) embN.1 s
      ((kf idx, e1) :: rest, s)

/-- The output-building loop shared by `HMV2ControlNet.forward` and
`HMV2ControlNet2.forward` (descending keys
`f'..._{len(self.blocks_down) - idx - 1}'`).  `n` is the total number of
blocks; the argument `u + 1` means the current iteration has
`up_idx = u` (so the block index is `n - 1 - u`); the initial call is
`descGo kf n de n embedding s`. -/
def descGo {P : Type} (kf : Nat → RKey) (n : Nat) (de : Expr) :
    (u : Nat) → Expr → St P → List (RKey × TV) × St P
  | 0, _, s => ([], s)
  | u + 1, emb, s =>
      let (embN, s) := fresh (.block (n - 1 - u) emb de) s
      let (e1, s) := fresh (.rearrange .bf_c_h_w__b_c_f_h_w embN.1) s
      let (rest, s) := descGo kf n de u embN.1 s
      ((kf u, e1) :: rest, s)

/-- The output-building loop of `HMV3ControlNet.forward` (lines 287-305):
descending `up3_*` keys plus the cross-wired `down3_*` outputs.  At
`up_idx == 2` the feature map is passed through `self.conv_up2_down0`
for key `down3_0`; at `up_idx == 1` through `self.conv_up1_down1` for
`down3_1`; at `up_idx == 0` the dictionary entry `up3_0` itself is
stored again (the same tensor object, no new operation) under `down3_2`
and `down3_3`.  The initial call is `v3Go n de n embedding s`. -/
def v3Go {P : Type} (n : Nat) (de : Expr) :
    (u : Nat) → Expr → St P → List (RKey × TV) × St P
  | 0, _, s => ([], s)
  | 1, emb, s =>
      -- final iteration, `up_idx == 0`: after storing `up3_0`, the very same
      -- dictionary entry is stored again under `down3_2` and `down3_3`
      -- (`ret_dict[f'down3_2'] = ret_dict[f'up3_0']`; no new tensor is made).
      let (embN, s) := fresh (.block (n - 1) emb de) s
      let (e1, s) := fresh (.rearrange .bf_c_h_w__b_c_f_h_w embN.1) s
      let (rest, s) := v3Go n de 0 embN.1 s
      ((RKey.up3 0, e1) :: (RKey.down3 2, e1) :: (RKey.down3 3, e1) :: rest, s)
  | 2, emb, s =>
      -- iteration with `up_idx == 1`: extra entry `down3_1` through
      -- `self.conv_up1_down1` (then the same un-flattening rearrange).
      let (embN, s) := fresh (.block (n - 1 - 1) emb de) s
      let (e1, s) := fresh (.rearrange .bf_c_h_w__b_c_f_h_w embN.1) s
      let (c1, s) := fresh (.applyMod .convUp1Down1 embN.1) s
      let (r1, s) := fresh (.rearrange .bf_c_h_w__b_c_f_h_w c1.1) s
      let (rest, s) := v3Go n de 1 embN.1 s
      ((RKey.up3 1, e1) :: (RKey.down3 1, r1) :: rest, s)
  | 3, emb, s =>
      -- iteration with `up_idx == 2`: extra entry `down3_0` through
      -- `self.conv_up2_down0`.
      let (embN, s) := fresh (.block (n - 1 - 2) emb de) s
      let (e1, s) := fresh (.rearrange .bf_c_h_w__b_c_f_h_w embN.1) s
      let (c0, s) := fresh (.applyMod .convUp2Down0 embN.1) s
      let (r0, s) := fresh (.rearrange .bf_c_h_w__b_c_f_h_w c0.1) s
      let (rest, s) := v3Go n de 2 embN.1 s
      ((RKey.up3 2, e1) :: (RKey.down3 0, r0) :: rest, s)
  | u + 4, emb, s =>
      -- iteration with `up_idx = u + 3 >= 3`: none of the three `if` branches
      -- fires, only the `up3_{up_idx}` entry is stored.
      let (embN, s) := fresh (.block (n - 1 - (u + 3)) emb de) s
      let (e1, s) := fresh (.rearrange .bf_c_h_w__b_c_f_h_w embN.1) s
      let (rest, s) := v3Go n de (u + 3) embN.1 s
      ((RKey.up3 (u + 3), e1) :: rest, s)

/-- Embedding of `HMControlNet.forward` (lines 57-88).  `n` is
`len(self.blocks_down) = len(block_out_channels) - 1`; the three tensor
arguments are `condition`, `drive_coeff`, `face_parts`. -/
def HMControlNet.forward {P : Type} (n : Nat)
    (condition drive_coeff face_parts : TV) (s : St P) :
    List (RKey × TV) × St P :=
  let (condition1, s) := fresh (.rearrange .b_c_f_h_w__bf_c_h_w condition.1) s
  let (conditioning, s) := fresh (.interpolate condition1.1) s
  let (embedding, s) := fresh (.applyMod .convIn conditioning.1) s
  let (t500, s) := fresh (.scale 500 drive_coeff.1) s
  let (drive_coeff1, s) := fresh (.rearrange .b_f_c__bfc t500.1) s
  let (drive_embedding1, s) := fresh (.applyMod .expEmbedding drive_coeff1.1) s
  let (drive_embedding2, s) := fresh (.toDtype drive_embedding1.1) s
  let (drive_embedding3, s) := fresh (.rearrange .bfc_d__b_f_c_d drive_embedding2.1) s
  let (face_parts1, s) := fresh (.rearrange .b_f_c_d__bf_c_d face_parts.1) s
  let (face_embedding1, s) := fresh (.applyMod .faceProj face_parts1.1) s
  let (face_embedding2, s) := fresh (.rearrange .bf_c_d__b_f_c_d face_embedding1.1) s
  let (drive_embedding4, s) := fresh (.cat face_embedding2.1 drive_embedding3.1) s
  let (drive_embedding5, s) := fresh (.rearrange .b_f_c_d__bf_c_d drive_embedding4.1) s
  let (drive_embedding6, s) := fresh (.applyMod .expProj drive_embedding5.1) s
  ascGo RKey.down drive_embedding6.1 n 0 embedding.1 s

/-- Embedding of `HMControlNet2.forward` (lines 123-146): single
emotion-embedding signal scaled by `20.`, projected by `self.emo_proj`,
ascending `down2_*` keys. -/
def HMControlNet2.forward {P : Type} (n : Nat)
    (condition emo_embedding : TV) (s : St P) :
    List (RKey × TV) × St P :=
  let (condition1, s) := fresh (.rearrange .b_c_f_h_w__bf_c_h_w condition.1) s
  let (condition2, s) := fresh (.interpolate condition1.1) s
  let (embedding, s) := fresh (.applyMod .convIn condition2.1) s
  let (t20, s) := fresh (.scale 20 emo_embedding.1) s
  let (drive_coeff, s) := fresh (.rearrange .b_f_c__bfc t20.1) s
  let (drive_embedding1, s) := fresh (.applyMod .expEmbedding drive_coeff.1) s
  let (drive_embedding2, s) := fresh (.toDtype drive_embedding1.1) s
  let (drive_embedding3, s) := fresh (.rearrange .bfc_d__b_f_c_d drive_embedding2.1) s
  let (drive_embedding4, s) := fresh (.rearrange .b_f_c_d__bf_c_d drive_embedding3.1) s
  let (drive_embedding5, s) := fresh (.applyMod .emoProj drive_embedding4.1) s
  ascGo RKey.down2 drive_embedding5.1 n 0 embedding.1 s

/-- Embedding of `HMV2ControlNet.forward` (lines 182-213): same dual
expression/face-part embedding construction as `HMControlNet.forward`,
descending `up_v2_*` keys. -/
def HMV2ControlNet.forward {P : Type} (n : Nat)
    (condition drive_coeff face_parts : TV) (s : St P) :
    List (RKey × TV) × St P :=
  let (conditioning1, s) := fresh (.rearrange .b_c_f_h_w__bf_c_h_w condition.1) s
  let (conditioning2, s) := fresh (.interpolate conditioning1.1) s
  let (embedding, s) := fresh (.applyMod .convIn conditioning2.1) s
  let (t500, s) := fresh (.scale 500 drive_coeff.1) s
  let (drive_coeff1, s) := fresh (.rearrange .b_f_c__bfc t500.1) s
  let (drive_embedding1, s) := fresh (.applyMod .expEmbedding drive_coeff1.1) s
  let (drive_embedding2, s) := fresh (.toDtype drive_embedding1.1) s
  let (drive_embedding3, s) := fresh (.rearrange .bfc_d__b_f_c_d drive_embedding2.1) s
  let (face_parts1, s) := fresh (.rearrange .b_f_c_d__bf_c_d face_parts.1) s
  let (face_embedding1, s) := fresh (.applyMod .faceProj face_parts1.1) s
  let (face_embedding2, s) := fresh (.rearrange .bf_c_d__b_f_c_d face_embedding1.1) s
  let (drive_embedding4, s) := fresh (.cat face_embedding2.1 drive_embedding3.1) s
  let (drive_embedding5, s) := fresh (.rearrange .b_f_c_d__bf_c_d drive_embedding4.1) s
  let (drive_embedding6, s) := fresh (.applyMod .expProj drive_embedding5.1) s
  descGo RKey.upV2 n drive_embedding6.1 n embedding.1 s

/-- Embedding of the branch in `HMV3ControlNet.forward` (lines 264-285)
that builds `drive_embedding`.  The Python test is
`if drive_coeff is None or face_parts is None`, i.e. the dual-signal
path runs exactly when both `drive_coeff` and `face_parts` are not
`None`; otherwise the emotion path runs, and there evaluating
`emo_embedding * 20.` with `emo_embedding = None` raises a
`TypeError`. -/
def HMV3ControlNet.driveEmbedding {P : Type}
    (drive_coeff face_parts emo_embedding : Option TV) (s : St P) :
    Except PyErr TV × St P :=
  match drive_coeff, face_parts with
  | some drive_coeff, some face_parts =>
      let (t500, s) := fresh (.scale 500 drive_coeff.1) s
      let (drive_coeff1, s) := fresh (.rearrange .b_f_c__bfc t500.1) s
      let (drive_embedding1, s) := fresh (.applyMod .expEmbedding drive_coeff1.1) s
      let (drive_embedding2, s) := fresh (.toDtype drive_embedding1.1) s
      let (drive_embedding3, s) := fresh (.rearrange .bfc_d__b_f_c_d drive_embedding2.1) s
      let (face_parts1, s) := fresh (.rearrange .b_f_c_d__bf_c_d face_parts.1) s
      let (face_embedding1, s) := fresh (.applyMod .faceProj face_parts1.1) s
      let (face_embedding2, s) := fresh (.rearrange .bf_c_d__b_f_c_d face_embedding1.1) s
      let (drive_embedding4, s) := fresh (.cat face_embedding2.1 drive_embedding3.1) s
      let (drive_embedding5, s) := fresh (.rearrange .b_f_c_d__bf_c_d drive_embedding4.1) s
      let (drive_embedding6, s) := fresh (.applyMod .expProj drive_embedding5.1) s
      (.ok drive_embedding6, s)
  | _, _ =>
      match emo_embedding with
      | none => (.error .typeError, s)
      | some emo_embedding =>
          let (t20, s) := fresh (.scale 20 emo_embedding.1) s
          let (emo_coeff, s) := fresh (.rearrange .b_f_c__bfc t20.1) s
          let (emo_embedding1, s) := fresh (.applyMod .emoEmbedding emo_coeff.1) s
          let (emo_embedding2, s) := fresh (.toDtype emo_embedding1.1) s
          let (emo_embedding3, s) := fresh (.rearrange .bfc_d__b_f_c_d emo_embedding2.1) s
          let (emo_embedding4, s) := fresh (.rearrange .b_f_c_d__bf_c_d emo_embedding3.1) s
          let (drive_embedding, s) := fresh (.applyMod .emoProj emo_embedding4.1) s
          (.ok drive_embedding, s)

/-- Embedding of `HMV3ControlNet.forward` (lines 254-305): visual chain,
then the dual-mode drive-embedding branch, then the `v3Go` loop. -/
def HMV3ControlNet.forward {P : Type} (n : Nat) (condition : TV)
    (drive_coeff face_parts emo_embedding : Option TV) (s : St P) :
    Except PyErr (List (RKey × TV)) × St P :=
  let (conditioning1, s) := fresh (.rearrange .b_c_f_h_w__bf_c_h_w condition.1) s
  let (conditioning2, s) := fresh (.interpolate conditioning1.1) s
  let (embedding, s) := fresh (.applyMod .convIn conditioning2.1) s
  match HMV3ControlNet.driveEmbedding drive_coeff face_parts emo_embedding s with
  | (.error e, s) => (.error e, s)
  | (.ok drive_embedding, s) =>
      let (d, s) := v3Go n drive_embedding.1 n embedding.1 s
      (.ok d, s)

/-- Embedding of `HMV2ControlNet2.forward` (lines 341-364): single
emotion-embedding signal scaled by `20.`, descending `up2_v2_*` keys. -/
def HMV2ControlNet2.forward {P : Type} (n : Nat)
    (condition emo_embedding : TV) (s : St P) :
    List (RKey × TV) × St P :=
  let (conditioning1, s) := fresh (.rearrange .b_c_f_h_w__bf_c_h_w condition.1) s
  let (conditioning2, s) := fresh (.interpolate conditioning1.1) s
  let (embedding, s) := fresh (.applyMod .convIn conditioning2.1) s
  let (t20, s) := fresh (.scale 20 emo_embedding.1) s
  let (drive_coeff, s) := fresh (.rearrange .b_f_c__bfc t20.1) s
  let (drive_embedding1, s) := fresh (.applyMod .expEmbedding drive_coeff.1) s
  let (drive_embedding2, s) := fresh (.toDtype drive_embedding1.1) s
  let (drive_embedding3, s) := fresh (.rearrange .bfc_d__b_f_c_d drive_embedding2.1) s
  let (drive_embedding4, s) := fresh (.rearrange .b_f_c_d__bf_c_d drive_embedding3.1) s
  let (drive_embedding5, s) := fresh (.applyMod .emoProj drive_embedding4.1) s
  descGo RKey.up2V2 n drive_embedding5.1 n embedding.1 s

/-- Runs a recorded operation trace against a framework behaviour oracle:
`oracle i = some e` means the `i`-th framework call raises `e`.  The
forward code contains no handler, so the first raised exception is the
result; otherwise the run completes and returns the next operation
index. -/
def runOps (oracle : Nat → Option PyErr) : List Expr → Nat → Except PyErr Nat
  | [], i => .ok i
  | _ :: rest, i =>
      match oracle i with
      | some e => .error e
      | none => runOps oracle rest (i + 1)

/-! ### Shape-level model

Shapes of the tensors flowing through a forward call.  The visual chain
is identical in all five classes: `rearrange "b c f h w -> (b f) c h w"`,
`F.interpolate` to `(h // scale_factor, w // scale_factor)` (integer
division, as in Python `//`), `self.conv_in` (3x3 convolution, padding 1,
stride 1: spatial size preserved, channels become
`block_out_channels[0]`), then the `SKCrossAttention` chain.

`SKCrossAttention` is repository code outside `src/`.  Modelled from the
spec: per section 4.6 it is a supplied primitive taking a visual feature
map to a wider visual feature map, output channel count dictated by its
`channel_out` configuration, batch axis preserved, and (per section 8)
spatial size possibly changed by internal downsampling; we abstract the
spatial behaviour of the `idx`-th block as an arbitrary function
`blockHW idx : (h, w) -> (h', w')`. -/

/-- Shape of a rank-5 tensor `(batch, channel, frame, height, width)`. -/
structure Shape5 where
  b : Nat
  c : Nat
  f : Nat
  h : Nat
  w : Nat
  deriving DecidableEq, Repr

/-- Shapes of the per-stage outputs of the fusion-chain loop common to
`HMControlNet`, `HMControlNet2`, `HMV2ControlNet` and `HMV2ControlNet2`:
the remaining `channel_out` widths are `couts`
(`block_out_channels[1:]`), the flattened batch axis is `N = b * f`,
and each stored output is the un-flattening
`rearrange(..., "(b f) c h w -> b c f h w", f=video_length)`,
whose batch axis is `N / f`. -/
def shapeGo (blockHW : Nat → Nat × Nat → Nat × Nat) (f : Nat) :
    (couts : List Nat) → (idx N h w : Nat) → List Shape5
  | [], _, _, _, _ => []
  | cout :: rest, idx, N, h, w =>
      let hw := blockHW idx (h, w)
      ⟨N / f, cout, f, hw.1, hw.2⟩ ::
        shapeGo blockHW f rest (idx + 1) N hw.1 hw.2

/-- Shapes of the output dictionary values for the four single-prefix
variants (their visual chains are line-for-line identical; only the
dictionary keys differ).  `cond` is the shape of the rank-5 `condition`
input. -/
def controlNetOutputShapes (scale_factor : Nat) (block_out_channels : List Nat)
    (blockHW : Nat → Nat × Nat → Nat × Nat) (cond : Shape5) : List Shape5 :=
  let N := cond.b * cond.f
  let h0 := cond.h / scale_factor
  let w0 := cond.w / scale_factor
  shapeGo blockHW cond.f block_out_channels.tail 0 N h0 w0

/-- Shapes (with keys) of the `HMV3ControlNet.forward` output dictionary:
the `up3_*` chain plus the cross-wired `down3_*` entries.
`self.conv_up2_down0` is a 1x1 convolution `1280 -> 320` (padding 0,
stride 1: spatial size preserved, 320 output channels) and
`self.conv_up1_down1` is a 1x1 convolution `1280 -> 640`. -/
def v3ShapeGo (blockHW : Nat → Nat × Nat → Nat × Nat) (f n : Nat) :
    (couts : List Nat) → (idx N h w : Nat) → List (RKey × Shape5)
  | [], _, _, _, _ => []
  | cout :: rest, idx, N, h, w =>
      let hw := blockHW idx (h, w)
      let u := n - idx - 1
      let entry : Shape5 := ⟨N / f, cout, f, hw.1, hw.2⟩
      ([(RKey.up3 u, entry)] ++
        (if u = 2 then [(RKey.down3 0, ⟨N / f, 320, f, hw.1, hw.2⟩)] else []) ++
        (if u = 1 then [(RKey.down3 1, ⟨N / f, 640, f, hw.1, hw.2⟩)] else []) ++
        (if u = 0 then [(RKey.down3 2, entry), (RKey.down3 3, entry)] else [])) ++
        v3ShapeGo blockHW f n rest (idx + 1) N hw.1 hw.2

/-- Shapes (with keys) of the `HMV3ControlNet.forward` output for a
rank-5 `condition` input of shape `cond`. -/
def HMV3ControlNet.outputShapes (scale_factor : Nat) (block_out_channels : List Nat)
    (blockHW : Nat → Nat × Nat → Nat × Nat) (cond : Shape5) : List (RKey × Shape5) :=
  let N := cond.b * cond.f
  let h0 := cond.h / scale_factor
  let w0 := cond.w / scale_factor
  v3ShapeGo blockHW cond.f (block_out_channels.length - 1)
    block_out_channels.tail 0 N h0 w0

/-! ### Data-level model of the frame-axis round trip

`rearrange(x, "b c f h w -> (b f) c h w")` flattens the batch and frame
axes in row-major order (`n = b * F + f`), and
`rearrange(y, "(b f) c h w -> b c f h w", f=video_length)` splits the
leading axis back (`b = n / F`, `f = n % F`).  We model tensors
extensionally as functions on coordinates. -/

/-- A rank-5 tensor with element type `Int`, indexed
`(batch, channel, frame, height, width)`. -/
structure T5 (B C F H W : Nat) where
  data : Fin B → Fin C → Fin F → Fin H → Fin W → Int

/-- A rank-4 tensor, indexed `(batch*frame, channel, height, width)`. -/
structure T4 (N C H W : Nat) where
  data : Fin N → Fin C → Fin H → Fin W → Int

/-- `rearrange(x, "b c f h w -> (b f) c h w")`: element `(n, c, h, w)` of
the result is element `(n / F, c, n % F, h, w)` of the input. -/
def flattenBF {B C F H W : Nat} (t : T5 B C F H W) : T4 (B * F) C H W where
  data n c h w :=
    t.data ⟨n.1 / F, Nat.div_lt_of_lt_mul (Nat.lt_of_lt_of_le n.2 (Nat.le_of_eq (Nat.mul_comm B F)))⟩ c
      ⟨n.1 % F, Nat.mod_lt _ (by
        rcases Nat.eq_zero_or_pos F with h0 | h0
        · subst h0; exact absurd n.2 (by simp)
        · exact h0)⟩ h w

/-- `rearrange(y, "(b f) c h w -> b c f h w", f=F)`: element
`(b, c, f, h, w)` of the result is element `(b * F + f, c, h, w)` of the
input. -/
def unflattenBF {B C F H W : Nat} (t : T4 (B * F) C H W) : T5 B C F H W where
  data b c f h w :=
    t.data ⟨b.1 * F + f.1, by
      calc b.1 * F + f.1 < b.1 * F + F := Nat.add_lt_add_left f.2 _
        _ = (b.1 + 1) * F := (Nat.succ_mul b.1 F).symm
        _ ≤ B * F := Nat.mul_le_mul_right F b.2⟩ c h w

/-! ### Module-inventory model

The sub-modules registered by each `__init__`, with their constructor
arguments, in registration order. -/

/-- Specification of one registered sub-module: `nn.Conv2d(cin, cout,
kernel_size=k, padding=pad, bias=bias)`, `Timesteps(dim, flip, shift)`,
`TimestepEmbedding(cin, cout)`, or `SKCrossAttention(channel_in,
channel_out, cross_attention_dim, num_positional_embeddings,
num_positional_embeddings_hidden)`. -/
inductive ModSpec
  | conv2d (cin cout k pad : Nat) (bias : Bool)
  | timesteps (dim : Nat) (flip : Bool) (shift : Nat)
  | timestepEmbedding (cin cout : Nat)
  | skCrossAttention (cin cout cad npe npeh : Nat)
  deriving DecidableEq, Repr

/-- Construction-time configuration of a variant (the
`@register_to_config` arguments). -/
structure NetConfig where
  embedding_channels : Nat
  input_channels : Nat
  scale_factor : Nat
  cross_attention_dim : Nat
  block_out_channels : List Nat
  deriving DecidableEq, Repr

/-- The default configuration of `HMControlNet` and `HMControlNet2`. -/
def hmDefaultConfig : NetConfig :=
  ⟨1280, 3, 8, 320, [128, 320, 640, 1280]⟩

/-- The default configuration of `HMV2ControlNet`, `HMV3ControlNet` and
`HMV2ControlNet2`. -/
def hmV2DefaultConfig : NetConfig :=
  ⟨1280, 3, 4, 320, [128, 640, 1280, 1280, 1280]⟩

/-- The `(channel_in, channel_out)` pairs of the fusion chain: the loop
`for i in range(1, len(block_out_channels))` pairs
`block_out_channels[i-1]` with `block_out_channels[i]`. -/
def blocksOf (boc : List Nat) : List (Nat × Nat) := boc.zip boc.tail

/-- Sub-modules registered by `HMControlNet.__init__` (lines 25-55), in
registration order, keyed by attribute name.  The fusion blocks use
`num_positional_embeddings=64` and `num_positional_embeddings_hidden=64`. -/
def HMControlNet.modules (cfg : NetConfig) : List (String × ModSpec) :=
  [("conv_in", .conv2d cfg.input_channels (cfg.block_out_channels.headD 0) 3 1 false),
   ("exp_embedding", .timesteps cfg.cross_attention_dim true 0),
   ("exp_proj", .timestepEmbedding cfg.cross_attention_dim cfg.cross_attention_dim),
   ("face_proj", .timestepEmbedding 1024 cfg.cross_attention_dim)] ++
  (blocksOf cfg.block_out_channels).map
    (fun p => ("blocks_down", .skCrossAttention p.1 p.2 cfg.cross_attention_dim 64 64))

/-- Sub-modules registered by `HMControlNet2.__init__` (lines 92-121):
no `face_proj`, an `emo_proj` in place of `exp_proj`, and fusion blocks
with `num_positional_embeddings_hidden=1024`. -/
def HMControlNet2.modules (cfg : NetConfig) : List (String × ModSpec) :=
  [("conv_in", .conv2d cfg.input_channels (cfg.block_out_channels.headD 0) 3 1 false),
   ("exp_embedding", .timesteps cfg.cross_attention_dim true 0),
   ("emo_proj", .timestepEmbedding cfg.cross_attention_dim cfg.cross_attention_dim)] ++
  (blocksOf cfg.block_out_channels).map
    (fun p => ("blocks_down", .skCrossAttention p.1 p.2 cfg.cross_attention_dim 64 1024))

/-- Modelled from the spec: section 4.2 describes `HMControlNet2` as
"structurally identical to 4.1" apart from the driving-signal branch ---
drop the face-region projection and replace the expression projection by
an emotion projection, leaving everything else (in particular the fusion
blocks) unchanged.  This transformation applied to
`HMControlNet.modules` is what claim C7 asserts `HMControlNet2.modules`
to be. -/
def specSwapDriving (l : List (String × ModSpec)) : List (String × ModSpec) :=
  (l.filter (fun p => p.1 ≠ "face_proj")).map
    (fun p => if p.1 = "exp_proj" then ("emo_proj", p.2) else p)

/-- The module inventory claim C7 predicts for `HMControlNet2`. -/
def HMControlNet2.modulesClaimed (cfg : NetConfig) : List (String × ModSpec) :=
  specSwapDriving (HMControlNet.modules cfg)

/-- Replace the `num_positional_embeddings_hidden` argument of every
fusion block by `k` (used to state the amended form of claim C7). -/
def withBlockNpeHidden (k : Nat) (l : List (String × ModSpec)) : List (String × ModSpec) :=
  l.map (fun p =>
    match p.2 with
    | .skCrossAttention a b c d _ => (p.1, ModSpec.skCrossAttention a b c d k)
    | _ => p)

/-- The key sequence produced by `v3Go` with `u` iterations remaining. -/
def v3Keys : Nat → List RKey
  | 0 => []
  | 1 => [RKey.up3 0, RKey.down3 2, RKey.down3 3]
  | 2 => RKey.up3 1 :: RKey.down3 1 :: v3Keys 1
  | 3 => RKey.up3 2 :: RKey.down3 0 :: v3Keys 2
  | u + 4 => RKey.up3 (u + 3) :: v3Keys (u + 3)

theorem ascGo_params {P : Type} (kf : Nat → RKey) (de : Expr) :
    ∀ (k idx : Nat) (emb : Expr) (s : St P),
      (ascGo kf de k idx emb s).2.params = s.params
  | 0, _, _, _ => rfl
  | k + 1, idx, emb, s => by
      simp only [ascGo, fresh]
      exact ascGo_params kf de k (idx + 1) _ _

theorem descGo_params {P : Type} (kf : Nat → RKey) (n : Nat) (de : Expr) :
    ∀ (u : Nat) (emb : Expr) (s : St P),
      (descGo kf n de u emb s).2.params = s.params
  | 0, _, _ => rfl
  | u + 1, emb, s => by
      simp only [descGo, fresh]
      exact descGo_params kf n de u _ _

theorem v3Go_params {P : Type} (n : Nat) (de : Expr) :
    ∀ (u : Nat) (emb : Expr) (s : St P),
      (v3Go n de u emb s).2.params = s.params
  | 0, _, _ => rfl
  | 1, emb, s => rfl
  | 2, emb, s => rfl
  | 3, emb, s => rfl
  | u + 4, emb, s => by
      simp only [v3Go, fresh]
      exact v3Go_params n de (u + 3) _ _

theorem ascGo_keys {P : Type} (kf : Nat → RKey) (de : Expr) :
    ∀ (k idx : Nat) (emb : Expr) (s : St P),
      ((ascGo kf de k idx emb s).1).map Prod.fst = (List.range' idx k).map kf
  | 0, _, _, _ => rfl
  | k + 1, idx, emb, s => by
      simp only [ascGo, fresh, List.range'_succ, List.map_cons]
      exact congrArg _ (ascGo_keys kf de k (idx + 1) _ _)

theorem descGo_keys {P : Type} (kf : Nat → RKey) (n : Nat) (de : Expr) :
    ∀ (u : Nat) (emb : Expr) (s : St P),
      ((descGo kf n de u emb s).1).map Prod.fst = ((List.range u).reverse).map kf
  | 0, _, _ => rfl
  | u + 1, emb, s => by
      simp only [descGo, fresh, List.range_succ, List.reverse_append, List.reverse_cons,
        List.reverse_nil, List.nil_append, List.cons_append, List.map_cons]
      exact congrArg _ (descGo_keys kf n de u _ _)

theorem v3Go_keys {P : Type} (n : Nat) (de : Expr) :
    ∀ (u : Nat) (emb : Expr) (s : St P),
      ((v3Go n de u emb s).1).map Prod.fst = v3Keys u
  | 0, _, _ => rfl
  | 1, emb, s => rfl
  | 2, emb, s => rfl
  | 3, emb, s => rfl
  | u + 4, emb, s => by
      simp only [v3Go, v3Keys, fresh, List.map_cons]
      exact congrArg _ (v3Go_keys n de (u + 3) _ _)

theorem v3Keys_length : ∀ u : Nat,
    (v3Keys u).length = u + (if 3 ≤ u then 1 else 0) + (if 2 ≤ u then 1 else 0) +
      (if 1 ≤ u then 2 else 0)
  | 0 => rfl
  | 1 => rfl
  | 2 => rfl
  | 3 => rfl
  | u + 4 => by
      have ih := v3Keys_length (u + 3)
      simp only [v3Keys, List.length_cons, ih]
      split_ifs <;> omega

theorem v3Keys_mem : ∀ (u : Nat), ∀ x ∈ v3Keys u,
    (∃ i, i < u ∧ x = RKey.up3 i) ∨ (∃ i, i < 4 ∧ x = RKey.down3 i)
  | 0, x, hx => by simp [v3Keys] at hx
  | 1, x, hx => by
      simp only [v3Keys, List.mem_cons, List.not_mem_nil, or_false] at hx
      rcases hx with rfl | rfl | rfl
      · exact Or.inl ⟨0, by omega, rfl⟩
      · exact Or.inr ⟨2, by omega, rfl⟩
      · exact Or.inr ⟨3, by omega, rfl⟩
  | 2, x, hx => by
      simp only [v3Keys, List.mem_cons, List.not_mem_nil, or_false] at hx
      rcases hx with rfl | rfl | rfl | rfl | rfl
      · exact Or.inl ⟨1, by omega, rfl⟩
      · exact Or.inr ⟨1, by omega, rfl⟩
      · exact Or.inl ⟨0, by omega, rfl⟩
      · exact Or.inr ⟨2, by omega, rfl⟩
      · exact Or.inr ⟨3, by omega, rfl⟩
  | 3, x, hx => by
      simp only [v3Keys, List.mem_cons, List.not_mem_nil, or_false] at hx
      rcases hx with rfl | rfl | rfl | rfl | rfl | rfl | rfl
      · exact Or.inl ⟨2, by omega, rfl⟩
      · exact Or.inr ⟨0, by omega, rfl⟩
      · exact Or.inl ⟨1, by omega, rfl⟩
      · exact Or.inr ⟨1, by omega, rfl⟩
      · exact Or.inl ⟨0, by omega, rfl⟩
      · exact Or.inr ⟨2, by omega, rfl⟩
      · exact Or.inr ⟨3, by omega, rfl⟩
  | u + 4, x, hx => by
      have h4 : v3Keys (u + 4) = RKey.up3 (u + 3) :: v3Keys (u + 3) := rfl
      rw [h4, List.mem_cons] at hx
      rcases hx with rfl | h
      · exact Or.inl ⟨u + 3, by omega, rfl⟩
      · rcases v3Keys_mem (u + 3) x h with ⟨i, hi, rfl⟩ | ⟨i, hi, rfl⟩
        · exact Or.inl ⟨i, by omega, rfl⟩
        · exact Or.inr ⟨i, hi, rfl⟩

theorem v3Go_lookup {P : Type} (n : Nat) (de : Expr) :
    ∀ (u : Nat) (emb : Expr) (s : St P),
      ∃ v, ((v3Go n de (u + 1) emb s).1.lookup (RKey.up3 0) = some v ∧
            (v3Go n de (u + 1) emb s).1.lookup (RKey.down3 2) = some v ∧
            (v3Go n de (u + 1) emb s).1.lookup (RKey.down3 3) = some v)
  | 0, _, _ => ⟨_, rfl, rfl, rfl⟩
  | 1, _, _ => ⟨_, rfl, rfl, rfl⟩
  | 2, _, _ => ⟨_, rfl, rfl, rfl⟩
  | u + 3, emb, s =>
      v3Go_lookup n de (u + 2) (Expr.block (n - 1 - (u + 3)) emb de)
        ⟨s.cnt + 1 + 1,
         (s.tr ++ [Expr.block (n - 1 - (u + 3)) emb de]) ++
           [Expr.rearrange .bf_c_h_w__b_c_f_h_w (Expr.block (n - 1 - (u + 3)) emb de)],
         s.params⟩

theorem ascGo_all {P : Type} (Q : Expr → Bool) (kf : Nat → RKey) (de : Expr)
    (hB : ∀ i a b, Q a = true → Q b = true → Q (.block i a b) = true)
    (hR : ∀ a, Q a = true → Q (.rearrange .bf_c_h_w__b_c_f_h_w a) = true)
    (hde : Q de = true) :
    ∀ (k idx : Nat) (emb : Expr) (s : St P), Q emb = true →
      ∀ p ∈ (ascGo kf de k idx emb s).1, Q p.2.1 = true
  | 0, _, _, _, _, p, hp => by simp [ascGo] at hp
  | k + 1, idx, emb, s, hemb, p, hp => by
      simp only [ascGo, fresh, List.mem_cons] at hp
      rcases hp with rfl | hp
      · exact hR _ (hB _ _ _ hemb hde)
      · exact ascGo_all Q kf de hB hR hde k (idx + 1) _ _ (hB _ _ _ hemb hde) p hp

theorem descGo_all {P : Type} (Q : Expr → Bool) (kf : Nat → RKey) (n : Nat) (de : Expr)
    (hB : ∀ i a b, Q a = true → Q b = true → Q (.block i a b) = true)
    (hR : ∀ a, Q a = true → Q (.rearrange .bf_c_h_w__b_c_f_h_w a) = true)
    (hde : Q de = true) :
    ∀ (u : Nat) (emb : Expr) (s : St P), Q emb = true →
      ∀ p ∈ (descGo kf n de u emb s).1, Q p.2.1 = true
  | 0, _, _, _, p, hp => by simp [descGo] at hp
  | u + 1, emb, s, hemb, p, hp => by
      simp only [descGo, fresh, List.mem_cons] at hp
      rcases hp with rfl | hp
      · exact hR _ (hB _ _ _ hemb hde)
      · exact descGo_all Q kf n de hB hR hde u _ _ (hB _ _ _ hemb hde) p hp

theorem v3Go_all {P : Type} (Q : Expr → Bool) (n : Nat) (de : Expr)
    (hB : ∀ i a b, Q a = true → Q b = true → Q (.block i a b) = true)
    (hR : ∀ a, Q a = true → Q (.rearrange .bf_c_h_w__b_c_f_h_w a) = true)
    (hC0 : ∀ a, Q a = true → Q (.applyMod .convUp2Down0 a) = true)
    (hC1 : ∀ a, Q a = true → Q (.applyMod .convUp1Down1 a) = true)
    (hde : Q de = true) :
    ∀ (u : Nat) (emb : Expr) (s : St P), Q emb = true →
      ∀ p ∈ (v3Go n de u emb s).1, Q p.2.1 = true
  | 0, _, _, _, p, hp => by simp [v3Go] at hp
  | 1, emb, s, hemb, p, hp => by
      simp only [v3Go, fresh, List.mem_cons, List.not_mem_nil, or_false] at hp
      rcases hp with rfl | rfl | rfl <;>
        exact hR _ (hB _ _ _ hemb hde)
  | 2, emb, s, hemb, p, hp => by
      simp only [v3Go, fresh, List.mem_cons, List.not_mem_nil, or_false] at hp
      rcases hp with rfl | rfl | rfl | rfl | rfl
      · exact hR _ (hB _ _ _ hemb hde)
      · exact hR _ (hC1 _ (hB _ _ _ hemb hde))
      · exact hR _ (hB _ _ _ (hB _ _ _ hemb hde) hde)
      · exact hR _ (hB _ _ _ (hB _ _ _ hemb hde) hde)
      · exact hR _ (hB _ _ _ (hB _ _ _ hemb hde) hde)
  | 3, emb, s, hemb, p, hp => by
      simp only [v3Go, fresh, List.mem_cons, List.not_mem_nil, or_false] at hp
      rcases hp with rfl | rfl | rfl | rfl | rfl | rfl | rfl
      · exact hR _ (hB _ _ _ hemb hde)
      · exact hR _ (hC0 _ (hB _ _ _ hemb hde))
      · exact hR _ (hB _ _ _ (hB _ _ _ hemb hde) hde)
      · exact hR _ (hC1 _ (hB _ _ _ (hB _ _ _ hemb hde) hde))
      · exact hR _ (hB _ _ _ (hB _ _ _ (hB _ _ _ hemb hde) hde) hde)
      · exact hR _ (hB _ _ _ (hB _ _ _ (hB _ _ _ hemb hde) hde) hde)
      · exact hR _ (hB _ _ _ (hB _ _ _ (hB _ _ _ hemb hde) hde) hde)
  | u + 4, emb, s, hemb, p, hp => by
      simp only [v3Go, fresh, List.mem_cons] at hp
      rcases hp with rfl | hp
      · exact hR _ (hB _ _ _ hemb hde)
      · exact v3Go_all Q n de hB hR hC0 hC1 hde (u + 3) _ _ (hB _ _ _ hemb hde) p hp

theorem runOps_ok_of_none (oracle : Nat → Option PyErr) (h : ∀ k, oracle k = none) :
    ∀ (ops : List Expr) (i : Nat), runOps oracle ops i = .ok (i + ops.length)
  | [], i => by simp [runOps]
  | e :: rest, i => by
      simp only [runOps, h i, List.length_cons]
      have := runOps_ok_of_none oracle h rest (i + 1)
      rw [this]
      congr 1
      omega

theorem runOps_ok_iff (oracle : Nat → Option PyErr) :
    ∀ (ops : List Expr) (i j : Nat), runOps oracle ops i = .ok j →
      j = i + ops.length ∧ ∀ k, i ≤ k → k < j → oracle k = none
  | [], i, j, h => by
      simp only [runOps, Except.ok.injEq] at h
      exact ⟨by simp only [List.length_nil]; omega, fun k hk1 hk2 => by omega⟩
  | e :: rest, i, j, h => by
      simp only [runOps] at h
      rcases ho : oracle i with _ | err
      · rw [ho] at h
        obtain ⟨hj, hnone⟩ := runOps_ok_iff oracle rest (i + 1) j h
        refine ⟨by simp [hj]; omega, fun k hk1 hk2 => ?_⟩
        rcases Nat.eq_or_lt_of_le hk1 with rfl | hlt
        · exact ho
        · exact hnone k hlt hk2
      · rw [ho] at h
        exact absurd h (by simp)

theorem runOps_error_first (oracle : Nat → Option PyErr) :
    ∀ (ops : List Expr) (i : Nat) (err : PyErr), runOps oracle ops i = .error err →
      ∃ k, i ≤ k ∧ k < i + ops.length ∧ oracle k = some err ∧
        ∀ j, i ≤ j → j < k → oracle j = none
  | [], i, err, h => by simp [runOps] at h
  | e :: rest, i, err, h => by
      simp only [runOps] at h
      rcases ho : oracle i with _ | err'
      · rw [ho] at h
        obtain ⟨k, hk1, hk2, hk3, hk4⟩ := runOps_error_first oracle rest (i + 1) err h
        refine ⟨k, by omega, by simp only [List.length_cons]; omega, hk3, fun j hj1 hj2 => ?_⟩
        rcases Nat.eq_or_lt_of_le hj1 with rfl | hlt
        · exact ho
        · exact hk4 j hlt hj2
      · rw [ho] at h
        simp only [Except.error.injEq] at h
        subst h
        exact ⟨i, Nat.le_refl i, by simp only [List.length_cons]; omega, ho,
          fun j hj1 hj2 => by omega⟩

theorem unflattenBF_flattenBF {B C F H W : Nat} (t : T5 B C F H W) :
    unflattenBF (flattenBF t) = t := by
  cases t with
  | mk d =>
    unfold unflattenBF flattenBF
    congr 1
    funext b c f h w
    have hF : 0 < F := f.pos
    have h1 : (b.1 * F + f.1) / F = b.1 := by
      rw [Nat.add_comm, Nat.mul_comm, Nat.add_mul_div_left _ _ hF,
        Nat.div_eq_of_lt f.2, Nat.zero_add]
    have h2 : (b.1 * F + f.1) % F = f.1 := by
      rw [Nat.add_comm, Nat.mul_comm, Nat.add_mul_mod_self_left, Nat.mod_eq_of_lt f.2]
    simp only [h1, h2, Fin.eta]

theorem shapeGo_mem (blockHW : Nat → Nat × Nat → Nat × Nat) (f : Nat) :
    ∀ (couts : List Nat) (idx N h w : Nat),
      ∀ x ∈ shapeGo blockHW f couts idx N h w, x.b = N / f ∧ x.f = f
  | [], _, _, _, _, x, hx => by simp [shapeGo] at hx
  | cout :: rest, idx, N, h, w, x, hx => by
      simp only [shapeGo, List.mem_cons] at hx
      rcases hx with rfl | hx
      · exact ⟨rfl, rfl⟩
      · exact shapeGo_mem blockHW f rest (idx + 1) N _ _ x hx

theorem shapeGo_map_c (blockHW : Nat → Nat × Nat → Nat × Nat) (f : Nat) :
    ∀ (couts : List Nat) (idx N h w : Nat),
      (shapeGo blockHW f couts idx N h w).map Shape5.c = couts
  | [], _, _, _, _ => rfl
  | cout :: rest, idx, N, h, w => by
      simp only [shapeGo, List.map_cons]
      exact congrArg _ (shapeGo_map_c blockHW f rest (idx + 1) N _ _)

theorem mem_ite_nil {α : Type} {c : Prop} [Decidable c] {l : List α} {x : α}
    (hx : x ∈ if c then l else []) : x ∈ l := by
  split at hx
  · exact hx
  · cases hx

theorem v3ShapeGo_mem (blockHW : Nat → Nat × Nat → Nat × Nat) (f n : Nat) :
    ∀ (couts : List Nat) (idx N h w : Nat),
      ∀ p ∈ v3ShapeGo blockHW f n couts idx N h w, p.2.b = N / f ∧ p.2.f = f
  | [], _, _, _, _, p, hp => by simp [v3ShapeGo] at hp
  | cout :: rest, idx, N, h, w, p, hp => by
      rw [v3ShapeGo] at hp
      rcases List.mem_append.1 hp with hp | hp
      · rcases List.mem_append.1 hp with hp | hp
        · rcases List.mem_append.1 hp with hp | hp
          · rcases List.mem_append.1 hp with hp | hp
            · obtain rfl := List.mem_singleton.1 hp
              exact ⟨rfl, rfl⟩
            · obtain rfl := List.mem_singleton.1 (mem_ite_nil hp)
              exact ⟨rfl, rfl⟩
          · obtain rfl := List.mem_singleton.1 (mem_ite_nil hp)
            exact ⟨rfl, rfl⟩
        · rcases List.mem_cons.1 (mem_ite_nil hp) with rfl | hp
          · exact ⟨rfl, rfl⟩
          · obtain rfl := List.mem_singleton.1 hp
            exact ⟨rfl, rfl⟩
      · exact v3ShapeGo_mem blockHW f n rest (idx + 1) N _ _ p hp

theorem specSwapDriving_append (a b : List (String × ModSpec)) :
    specSwapDriving (a ++ b) = specSwapDriving a ++ specSwapDriving b := by
  simp [specSwapDriving, List.filter_append]

theorem withBlockNpeHidden_append (k : Nat) (a b : List (String × ModSpec)) :
    withBlockNpeHidden k (a ++ b) = withBlockNpeHidden k a ++ withBlockNpeHidden k b := by
  simp [withBlockNpeHidden]

theorem swap_map_blocks (cad : Nat) : ∀ (l : List (Nat × Nat)),
    withBlockNpeHidden 1024 (specSwapDriving (l.map
        (fun p => ("blocks_down", ModSpec.skCrossAttention p.1 p.2 cad 64 64)))) =
      l.map (fun p => ("blocks_down", ModSpec.skCrossAttention p.1 p.2 cad 64 1024))
  | [] => rfl
  | x :: rest => by
      have ih := swap_map_blocks cad rest
      simp only [List.map_cons, specSwapDriving, List.filter_cons, withBlockNpeHidden] at ih ⊢
      simp_all
  termination_by l => l.length

theorem hm2_modules_eq (cfg : NetConfig) :
    withBlockNpeHidden 1024 (HMControlNet2.modulesClaimed cfg) = HMControlNet2.modules cfg := by
  unfold HMControlNet2.modulesClaimed HMControlNet.modules HMControlNet2.modules
  rw [specSwapDriving_append, withBlockNpeHidden_append]
  congr 1
  exact swap_map_blocks cfg.cross_attention_dim (blocksOf cfg.block_out_channels)

theorem ascGo_all2 {P : Type} (Q : Expr → Bool) (kf : Nat → RKey) (de : Expr)
    (hB : ∀ i a b, Q b = true → Q (.block i a b) = true)
    (hR : ∀ a, Q a = true → Q (.rearrange .bf_c_h_w__b_c_f_h_w a) = true)
    (hde : Q de = true) :
    ∀ (k idx : Nat) (emb : Expr) (s : St P),
      ∀ p ∈ (ascGo kf de k idx emb s).1, Q p.2.1 = true
  | 0, _, _, _, p, hp => by simp [ascGo] at hp
  | k + 1, idx, emb, s, p, hp => by
      simp only [ascGo, fresh, List.mem_cons] at hp
      rcases hp with rfl | hp
      · exact hR _ (hB _ _ _ hde)
      · exact ascGo_all2 Q kf de hB hR hde k (idx + 1) _ _ p hp

theorem descGo_all2 {P : Type} (Q : Expr → Bool) (kf : Nat → RKey) (n : Nat) (de : Expr)
    (hB : ∀ i a b, Q b = true → Q (.block i a b) = true)
    (hR : ∀ a, Q a = true → Q (.rearrange .bf_c_h_w__b_c_f_h_w a) = true)
    (hde : Q de = true) :
    ∀ (u : Nat) (emb : Expr) (s : St P),
      ∀ p ∈ (descGo kf n de u emb s).1, Q p.2.1 = true
  | 0, _, _, p, hp => by simp [descGo] at hp
  | u + 1, emb, s, p, hp => by
      simp only [descGo, fresh, List.mem_cons] at hp
      rcases hp with rfl | hp
      · exact hR _ (hB _ _ _ hde)
      · exact descGo_all2 Q kf n de hB hR hde u _ _ p hp

theorem v3Go_all2 {P : Type} (Q : Expr → Bool) (n : Nat) (de : Expr)
    (hB : ∀ i a b, Q b = true → Q (.block i a b) = true)
    (hR : ∀ a, Q a = true → Q (.rearrange .bf_c_h_w__b_c_f_h_w a) = true)
    (hC0 : ∀ a, Q a = true → Q (.applyMod .convUp2Down0 a) = true)
    (hC1 : ∀ a, Q a = true → Q (.applyMod .convUp1Down1 a) = true)
    (hde : Q de = true) :
    ∀ (u : Nat) (emb : Expr) (s : St P),
      ∀ p ∈ (v3Go n de u emb s).1, Q p.2.1 = true
  | 0, _, _, p, hp => by simp [v3Go] at hp
  | 1, emb, s, p, hp => by
      simp only [v3Go, fresh, List.mem_cons, List.not_mem_nil, or_false] at hp
      rcases hp with rfl | rfl | rfl <;> exact hR _ (hB _ _ _ hde)
  | 2, emb, s, p, hp => by
      simp only [v3Go, fresh, List.mem_cons, List.not_mem_nil, or_false] at hp
      rcases hp with rfl | rfl | rfl | rfl | rfl
      · exact hR _ (hB _ _ _ hde)
      · exact hR _ (hC1 _ (hB _ _ _ hde))
      · exact hR _ (hB _ _ _ hde)
      · exact hR _ (hB _ _ _ hde)
      · exact hR _ (hB _ _ _ hde)
  | 3, emb, s, p, hp => by
      simp only [v3Go, fresh, List.mem_cons, List.not_mem_nil, or_false] at hp
      rcases hp with rfl | rfl | rfl | rfl | rfl | rfl | rfl
      · exact hR _ (hB _ _ _ hde)
      · exact hR _ (hC0 _ (hB _ _ _ hde))
      · exact hR _ (hB _ _ _ hde)
      · exact hR _ (hC1 _ (hB _ _ _ hde))
      · exact hR _ (hB _ _ _ hde)
      · exact hR _ (hB _ _ _ hde)
      · exact hR _ (hB _ _ _ hde)
  | u + 4, emb, s, p, hp => by
      simp only [v3Go, fresh, List.mem_cons] at hp
      rcases hp with rfl | hp
      · exact hR _ (hB _ _ _ hde)
      · exact v3Go_all2 Q n de hB hR hC0 hC1 hde (u + 3) _ _ p hp

/-- C10: in `HMV3ControlNet.forward` the branch test is
`if drive_coeff is None or face_parts is None`, so whenever either dual
input is missing the emotion path is taken even if the other dual input
is present; with `emo_embedding=None` that path evaluates
`emo_embedding * 20.` on `None` and raises a `TypeError` instead of
reporting the missing dual-signal input.  The trace clause shows that
only the three visual-chain operations ran before the exception: the
dual-signal path never executed. -/
theorem hmv3_missing_emo_typeerror {P : Type} (p : P) (n c0 : Nat)
    (condition dc fp : TV) (s : St P) :
    (HMV3ControlNet.forward n condition (some dc) none none s).1 = .error .typeError ∧
    (HMV3ControlNet.forward n condition none (some fp) none s).1 = .error .typeError ∧
    (HMV3ControlNet.forward n condition none none none s).1 = .error .typeError ∧
    (HMV3ControlNet.forward n condition (some dc) none none (⟨c0, [], p⟩ : St P)).2.tr =
      [Expr.rearrange .b_c_f_h_w__bf_c_h_w condition.1,
       Expr.interpolate (.rearrange .b_c_f_h_w__bf_c_h_w condition.1),
       Expr.applyMod .convIn (.interpolate (.rearrange .b_c_f_h_w__bf_c_h_w condition.1))] :=
  ⟨rfl, rfl, rfl, rfl⟩

/-- C6: `HMV2ControlNet.forward` stores its stage outputs under
descending keys `up_v2_{n-1}, ..., up_v2_0` (the `idx`-th fusion block's
output goes to index `n-1-idx`), and `HMV2ControlNet2.forward` does the
same with `up2_v2_*` keys. -/
theorem descending_key_order {P : Type} (n : Nat)
    (condition drive_coeff face_parts emo_embedding : TV) (s s2 : St P) :
    ((HMV2ControlNet.forward n condition drive_coeff face_parts s).1).map Prod.fst =
      ((List.range n).reverse).map RKey.upV2 ∧
    ((HMV2ControlNet2.forward n condition emo_embedding s2).1).map Prod.fst =
      ((List.range n).reverse).map RKey.up2V2 := by
  constructor
  · simp only [HMV2ControlNet.forward, fresh]
    exact descGo_keys RKey.upV2 n _ n _ _
  · simp only [HMV2ControlNet2.forward, fresh]
    exact descGo_keys RKey.up2V2 n _ n _ _

/-- C2: whenever a `HMV3ControlNet.forward` call succeeds and produces the
key `up3_0` (i.e. at least one fusion block exists), the entries stored
under `down3_2` and `down3_3` are the very same tensor value --- same
dataflow term and same allocation identifier, hence the same Python
tensor object --- as the entry `up3_0`. -/
theorem hmv3_down3_aliasing {P : Type} (n : Nat) (condition : TV)
    (drive_coeff face_parts emo_embedding : Option TV) (s : St P)
    (d : List (RKey × TV)) (s' : St P) (hn : 1 ≤ n)
    (h : HMV3ControlNet.forward n condition drive_coeff face_parts emo_embedding s =
      (.ok d, s')) :
    ∃ v, d.lookup (RKey.up3 0) = some v ∧ d.lookup (RKey.down3 2) = some v ∧
      d.lookup (RKey.down3 3) = some v := by
  obtain ⟨m, rfl⟩ : ∃ m, n = m + 1 := ⟨n - 1, by omega⟩
  simp only [HMV3ControlNet.forward, fresh] at h
  rcases hde : HMV3ControlNet.driveEmbedding drive_coeff face_parts emo_embedding
      ⟨s.cnt + 1 + 1 + 1,
       ((s.tr ++ [Expr.rearrange .b_c_f_h_w__bf_c_h_w condition.1]) ++
         [Expr.interpolate (.rearrange .b_c_f_h_w__bf_c_h_w condition.1)]) ++
         [Expr.applyMod .convIn (.interpolate (.rearrange .b_c_f_h_w__bf_c_h_w condition.1))],
       s.params⟩ with ⟨r, s2⟩
  rw [hde] at h
  rcases r with e | de
  · rw [show (match ((Except.error e : Except PyErr TV), s2) with
        | (Except.error e, s) => ((Except.error e : Except PyErr (List (RKey × TV))), s)
        | (Except.ok drive_embedding, s) =>
          (Except.ok
              (v3Go (m + 1) drive_embedding.1 (m + 1)
                  (Expr.applyMod .convIn (.interpolate (.rearrange .b_c_f_h_w__bf_c_h_w condition.1))) s).1,
            (v3Go (m + 1) drive_embedding.1 (m + 1)
                (Expr.applyMod .convIn (.interpolate (.rearrange .b_c_f_h_w__bf_c_h_w condition.1))) s).2)) =
        ((Except.error e : Except PyErr (List (RKey × TV))), s2) from rfl] at h
    exact absurd (congrArg Prod.fst h) (by simp)
  · dsimp only at h
    rcases hv : v3Go (m + 1) de.1 (m + 1)
        (Expr.applyMod .convIn (.interpolate (.rearrange .b_c_f_h_w__bf_c_h_w condition.1)))
        s2 with ⟨dl, s3⟩
    rw [hv] at h
    obtain ⟨h1, h2⟩ := Prod.mk.injEq .. |>.mp h
    obtain rfl : dl = d := by injection h1
    obtain ⟨v, hv1, hv2, hv3⟩ := v3Go_lookup (m + 1) de.1 m
      (Expr.applyMod .convIn (.interpolate (.rearrange .b_c_f_h_w__bf_c_h_w condition.1))) s2
    rw [hv] at hv1 hv2 hv3
    exact ⟨v, hv1, hv2, hv3⟩

/-- C8: a forward call of any variant never mutates the module state: the
learned-parameter component threaded through the call is returned
unchanged (matching the source, whose `forward` bodies contain no
assignment to `self`), so each forward is a pure function of its inputs
and the fixed parameters. -/
theorem forward_params_unchanged {P : Type} (n : Nat)
    (condition drive_coeff face_parts emo_embedding : TV)
    (dcO fpO emO : Option TV) (s : St P) :
    (HMControlNet.forward n condition drive_coeff face_parts s).2.params = s.params ∧
    (HMControlNet2.forward n condition emo_embedding s).2.params = s.params ∧
    (HMV2ControlNet.forward n condition drive_coeff face_parts s).2.params = s.params ∧
    (HMV2ControlNet2.forward n condition emo_embedding s).2.params = s.params ∧
    (HMV3ControlNet.forward n condition dcO fpO emO s).2.params = s.params := by
  refine ⟨?_, ?_, ?_, ?_, ?_⟩
  · simp only [HMControlNet.forward, fresh]
    exact ascGo_params _ _ n 0 _ _
  · simp only [HMControlNet2.forward, fresh]
    exact ascGo_params _ _ n 0 _ _
  · simp only [HMV2ControlNet.forward, fresh]
    exact descGo_params _ n _ n _ _
  · simp only [HMV2ControlNet2.forward, fresh]
    exact descGo_params _ n _ n _ _
  · rcases dcO with _ | dc <;> rcases fpO with _ | fp <;> rcases emO with _ | em <;>
      simp only [HMV3ControlNet.forward, HMV3ControlNet.driveEmbedding, fresh] <;>
      first
        | rfl
        | exact v3Go_params _ _ n _ _

/-- C7 counterexample: claim C7 predicts that `HMControlNet2`'s module
inventory is `HMControlNet`'s with only the driving branch swapped
(`HMControlNet2.modulesClaimed`); at the default configuration the two
differ, because `HMControlNet.__init__` builds its fusion blocks with
`num_positional_embeddings_hidden=64` while `HMControlNet2.__init__`
uses `1024` --- the fusion-chain configuration is not identical. -/
theorem hmcontrolnet2_structure_counterexample :
    HMControlNet2.modules hmDefaultConfig ≠ HMControlNet2.modulesClaimed hmDefaultConfig ∧
    (HMControlNet2.modules hmDefaultConfig).getD 3 ("", ModSpec.conv2d 0 0 0 0 false) =
      ("blocks_down", ModSpec.skCrossAttention 128 320 320 64 1024) ∧
    (HMControlNet2.modulesClaimed hmDefaultConfig).getD 3 ("", ModSpec.conv2d 0 0 0 0 false) =
      ("blocks_down", ModSpec.skCrossAttention 128 320 320 64 64) :=
  ⟨by decide, rfl, rfl⟩

/-- C7 (amended): for every configuration, `HMControlNet2` is structurally
identical to `HMControlNet` except for (a) the driving-signal branch ---
no `face_proj` sub-module, `emo_proj` in place of `exp_proj`, and the
single emotion input scaled by the constant 20 where `HMControlNet`
scales its expression input by 500 --- and (b) the fusion blocks'
`num_positional_embeddings_hidden` argument, which is 1024 instead of
`HMControlNet`'s 64. -/
theorem hmcontrolnet2_structure_amended {P : Type} (cfg : NetConfig) (n : Nat)
    (nc nd nf ne : String) (i0 i1 i2 i3 : Nat) (s s2 : St P) :
    withBlockNpeHidden 1024 (HMControlNet2.modulesClaimed cfg) = HMControlNet2.modules cfg ∧
    (∀ p ∈ (HMControlNet.forward n (.input nc, i0) (.input nd, i1) (.input nf, i2) s).1,
      p.2.1.encodersScaled 500 = true) ∧
    (∀ p ∈ (HMControlNet2.forward n (.input nc, i0) (.input ne, i3) s2).1,
      p.2.1.encodersScaled 20 = true) ∧
    (500 : Nat) ≠ 20 := by
  refine ⟨hm2_modules_eq cfg, ?_, ?_, by decide⟩
  · simp only [HMControlNet.forward, fresh]
    refine ascGo_all (Expr.encodersScaled 500) RKey.down _
      (fun i a b ha hb => by simp [Expr.encodersScaled, ha, hb])
      (fun a ha => ha) ?_ n 0 _ _ ?_ <;> rfl
  · simp only [HMControlNet2.forward, fresh]
    refine ascGo_all (Expr.encodersScaled 20) RKey.down2 _
      (fun i a b ha hb => by simp [Expr.encodersScaled, ha, hb])
      (fun a ha => ha) ?_ n 0 _ _ ?_ <;> rfl

/-- C4: in every variant (and both HMV3ControlNet modes), the expression
driving coefficients are multiplied by 500 and the emotion embeddings by
20 before the sinusoidal timestep encoder: every encoder application in
every output term takes `rearrange(input * k, "b f c -> (b f c)")` as
its argument, and every output term really does contain an encoder
application. -/
theorem scaling_before_embedding {P : Type} (n : Nat) (nc nd nf ne : String)
    (i0 i1 i2 i3 : Nat) (emO : Option TV) (s : St P) :
    (∀ p ∈ (HMControlNet.forward n (.input nc, i0) (.input nd, i1) (.input nf, i2) s).1,
       p.2.1.encodersScaled 500 = true ∧ p.2.1.usesMod .expEmbedding = true) ∧
    (∀ p ∈ (HMControlNet2.forward n (.input nc, i0) (.input ne, i3) s).1,
       p.2.1.encodersScaled 20 = true ∧ p.2.1.usesMod .expEmbedding = true) ∧
    (∀ p ∈ (HMV2ControlNet.forward n (.input nc, i0) (.input nd, i1) (.input nf, i2) s).1,
       p.2.1.encodersScaled 500 = true ∧ p.2.1.usesMod .expEmbedding = true) ∧
    (∀ p ∈ (HMV2ControlNet2.forward n (.input nc, i0) (.input ne, i3) s).1,
       p.2.1.encodersScaled 20 = true ∧ p.2.1.usesMod .expEmbedding = true) ∧
    (∀ d s', HMV3ControlNet.forward n (.input nc, i0) (some (.input nd, i1))
        (some (.input nf, i2)) emO s = (.ok d, s') →
       ∀ p ∈ d, p.2.1.encodersScaled 500 = true ∧ p.2.1.usesMod .expEmbedding = true) ∧
    (∀ d s', HMV3ControlNet.forward n (.input nc, i0) none none (some (.input ne, i3)) s =
        (.ok d, s') →
       ∀ p ∈ d, p.2.1.encodersScaled 20 = true ∧ p.2.1.usesMod .emoEmbedding = true) := by
  have hBe : ∀ (k : Nat) i a b, Expr.encodersScaled k a = true → Expr.encodersScaled k b = true →
      Expr.encodersScaled k (.block i a b) = true :=
    fun k i a b ha hb => by simp [Expr.encodersScaled, ha, hb]
  have hBu : ∀ (m : SubMod) i a b, Expr.usesMod b m = true → Expr.usesMod (.block i a b) m = true :=
    fun m i a b hb => by simp [Expr.usesMod, hb]
  refine ⟨?_, ?_, ?_, ?_, ?_, ?_⟩
  · intro p hp
    simp only [HMControlNet.forward, fresh] at hp
    refine ⟨ascGo_all (Expr.encodersScaled 500) RKey.down _ (hBe 500) (fun a ha => ha)
        ?_ n 0 _ _ ?_ p hp,
      ascGo_all2 (Expr.usesMod · .expEmbedding) RKey.down _ (hBu .expEmbedding)
        (fun a ha => ha) ?_ n 0 _ _ p hp⟩ <;> rfl
  · intro p hp
    simp only [HMControlNet2.forward, fresh] at hp
    refine ⟨ascGo_all (Expr.encodersScaled 20) RKey.down2 _ (hBe 20) (fun a ha => ha)
        ?_ n 0 _ _ ?_ p hp,
      ascGo_all2 (Expr.usesMod · .expEmbedding) RKey.down2 _ (hBu .expEmbedding)
        (fun a ha => ha) ?_ n 0 _ _ p hp⟩ <;> rfl
  · intro p hp
    simp only [HMV2ControlNet.forward, fresh] at hp
    refine ⟨descGo_all (Expr.encodersScaled 500) RKey.upV2 n _ (hBe 500) (fun a ha => ha)
        ?_ n _ _ ?_ p hp,
      descGo_all2 (Expr.usesMod · .expEmbedding) RKey.upV2 n _ (hBu .expEmbedding)
        (fun a ha => ha) ?_ n _ _ p hp⟩ <;> rfl
  · intro p hp
    simp only [HMV2ControlNet2.forward, fresh] at hp
    refine ⟨descGo_all (Expr.encodersScaled 20) RKey.up2V2 n _ (hBe 20) (fun a ha => ha)
        ?_ n _ _ ?_ p hp,
      descGo_all2 (Expr.usesMod · .expEmbedding) RKey.up2V2 n _ (hBu .expEmbedding)
        (fun a ha => ha) ?_ n _ _ p hp⟩ <;> rfl
  · intro d s' h p hp
    simp only [HMV3ControlNet.forward, HMV3ControlNet.driveEmbedding, fresh] at h
    obtain ⟨h1, h2⟩ := Prod.mk.injEq .. |>.mp h
    obtain rfl := (Except.ok.injEq .. |>.mp h1).symm
    refine ⟨v3Go_all (Expr.encodersScaled 500) n _ (hBe 500) (fun a ha => ha)
        (fun a ha => ha) (fun a ha => ha) ?_ n _ _ ?_ p hp,
      v3Go_all2 (Expr.usesMod · .expEmbedding) n _ (hBu .expEmbedding) (fun a ha => ha)
        (fun a ha => by simp [Expr.usesMod, ha]) (fun a ha => by simp [Expr.usesMod, ha])
        ?_ n _ _ p hp⟩ <;> rfl
  · intro d s' h p hp
    simp only [HMV3ControlNet.forward, HMV3ControlNet.driveEmbedding, fresh] at h
    obtain ⟨h1, h2⟩ := Prod.mk.injEq .. |>.mp h
    obtain rfl := (Except.ok.injEq .. |>.mp h1).symm
    refine ⟨v3Go_all (Expr.encodersScaled 20) n _ (hBe 20) (fun a ha => ha)
        (fun a ha => ha) (fun a ha => ha) ?_ n _ _ ?_ p hp,
      v3Go_all2 (Expr.usesMod · .emoEmbedding) n _ (hBu .emoEmbedding) (fun a ha => ha)
        (fun a ha => by simp [Expr.usesMod, ha]) (fun a ha => by simp [Expr.usesMod, ha])
        ?_ n _ _ p hp⟩ <;> rfl

/-- C1: in `HMV3ControlNet.forward` the dual-signal path (through
`exp_embedding`, `face_proj`, `exp_proj`) executes exactly when both
`drive_coeff` and `face_parts` are supplied; otherwise the single
emotion path (through `emo_embedding`, `emo_proj`) executes (raising if
`emo_embedding` is missing).  Exactly one of the two paths runs on every
call, every produced output uses the selected path's embedding
sub-modules and none of the other path's, and the two paths' embedding
sub-modules are disjoint. -/
theorem hmv3_mode_selection {P : Type} (n : Nat) (nc nd nf ne : String)
    (i0 i1 i2 i3 : Nat) (s : St P) :
    (∀ (em : Option TV), ∃ v s',
      HMV3ControlNet.driveEmbedding (some (.input nd, i1)) (some (.input nf, i2)) em s =
        (.ok v, s') ∧
      v.1.usesMod .expEmbedding = true ∧ v.1.usesMod .faceProj = true ∧
      v.1.usesMod .expProj = true ∧ v.1.usesMod .emoEmbedding = false ∧
      v.1.usesMod .emoProj = false) ∧
    (∀ (dc fp : Option TV), dc = none ∨ fp = none → ∃ v s',
      HMV3ControlNet.driveEmbedding dc fp (some (.input ne, i3)) s = (.ok v, s') ∧
      v.1.usesMod .emoEmbedding = true ∧ v.1.usesMod .emoProj = true ∧
      v.1.usesMod .expEmbedding = false ∧ v.1.usesMod .faceProj = false ∧
      v.1.usesMod .expProj = false) ∧
    (∀ (dc fp : Option TV), dc = none ∨ fp = none →
      (HMV3ControlNet.driveEmbedding dc fp none s).1 = .error .typeError) ∧
    (∀ (em : Option TV) (d : List (RKey × TV)) (s' : St P),
      HMV3ControlNet.forward n (.input nc, i0) (some (.input nd, i1)) (some (.input nf, i2))
        em s = (.ok d, s') →
      ∀ p ∈ d,
        (p.2.1.usesMod .expEmbedding = true ∧ p.2.1.usesMod .faceProj = true ∧
          p.2.1.usesMod .expProj = true) ∧
        (p.2.1.usesMod .emoEmbedding = false ∧ p.2.1.usesMod .emoProj = false)) ∧
    (∀ (d : List (RKey × TV)) (s' : St P),
      HMV3ControlNet.forward n (.input nc, i0) none none (some (.input ne, i3)) s =
        (.ok d, s') →
      ∀ p ∈ d,
        (p.2.1.usesMod .emoEmbedding = true ∧ p.2.1.usesMod .emoProj = true) ∧
        (p.2.1.usesMod .expEmbedding = false ∧ p.2.1.usesMod .faceProj = false ∧
          p.2.1.usesMod .expProj = false)) ∧
    (∀ m : SubMod,
      ¬(m ∈ [SubMod.expEmbedding, SubMod.faceProj, SubMod.expProj] ∧
        m ∈ [SubMod.emoEmbedding, SubMod.emoProj])) := by
  refine ⟨?_, ?_, ?_, ?_, ?_, ?_⟩
  · intro em
    exact ⟨_, _, rfl, rfl, rfl, rfl, rfl, rfl⟩
  · intro dc fp h
    rcases h with rfl | rfl
    · exact ⟨_, _, rfl, rfl, rfl, rfl, rfl, rfl⟩
    · rcases dc with _ | dcv
      · exact ⟨_, _, rfl, rfl, rfl, rfl, rfl, rfl⟩
      · exact ⟨_, _, rfl, rfl, rfl, rfl, rfl, rfl⟩
  · intro dc fp h
    rcases h with rfl | rfl
    · rfl
    · rcases dc with _ | dcv <;> rfl
  · intro em d s' h p hp
    simp only [HMV3ControlNet.forward, HMV3ControlNet.driveEmbedding, fresh] at h
    obtain ⟨h1, h2⟩ := Prod.mk.injEq .. |>.mp h
    obtain rfl := (Except.ok.injEq .. |>.mp h1).symm
    constructor
    · have hpos := v3Go_all2
        (fun e => e.usesMod .expEmbedding && e.usesMod .faceProj && e.usesMod .expProj) n _
        (fun i a b hb => by simp_all [Expr.usesMod])
        (fun a ha => ha) (fun a ha => by simp_all [Expr.usesMod])
        (fun a ha => by simp_all [Expr.usesMod]) (by rfl) n _ _ p hp
      simp only [Bool.and_eq_true] at hpos
      exact ⟨hpos.1.1, hpos.1.2, hpos.2⟩
    · have hneg := v3Go_all
        (fun e => !(e.usesMod .emoEmbedding) && !(e.usesMod .emoProj)) n _
        (fun i a b ha hb => by simp_all [Expr.usesMod])
        (fun a ha => ha) (fun a ha => by simp_all [Expr.usesMod])
        (fun a ha => by simp_all [Expr.usesMod]) (by rfl) n _ _ (by rfl) p hp
      simp only [Bool.and_eq_true, Bool.not_eq_true'] at hneg
      exact hneg
  · intro d s' h p hp
    simp only [HMV3ControlNet.forward, HMV3ControlNet.driveEmbedding, fresh] at h
    obtain ⟨h1, h2⟩ := Prod.mk.injEq .. |>.mp h
    obtain rfl := (Except.ok.injEq .. |>.mp h1).symm
    constructor
    · have hpos := v3Go_all2
        (fun e => e.usesMod .emoEmbedding && e.usesMod .emoProj) n _
        (fun i a b hb => by simp_all [Expr.usesMod])
        (fun a ha => ha) (fun a ha => by simp_all [Expr.usesMod])
        (fun a ha => by simp_all [Expr.usesMod]) (by rfl) n _ _ p hp
      simp only [Bool.and_eq_true] at hpos
      exact hpos
    · have hneg := v3Go_all
        (fun e => !(e.usesMod .expEmbedding) && !(e.usesMod .faceProj) &&
          !(e.usesMod .expProj)) n _
        (fun i a b ha hb => by simp_all [Expr.usesMod])
        (fun a ha => ha) (fun a ha => by simp_all [Expr.usesMod])
        (fun a ha => by simp_all [Expr.usesMod]) (by rfl) n _ _ (by rfl) p hp
      simp only [Bool.and_eq_true, Bool.not_eq_true'] at hneg
      exact ⟨hneg.1.1, hneg.1.2, hneg.2⟩
  · intro m
    cases m <;> decide

/-- C3 counterexample: at the default `HMV3ControlNet` configuration
(`block_out_channels` of length 5, so `len(block_out_channels) - 1 = 4`
fusion blocks), a successful forward call returns a dictionary with
8 keys (`up3_3..up3_0` plus `down3_0..down3_3`), not 4. -/
theorem hmv3_key_count_counterexample :
    Except.map List.length (HMV3ControlNet.forward 4 (Expr.input "condition", 0)
        (some (Expr.input "drive_coeff", 1)) (some (Expr.input "face_parts", 2)) none
        (⟨3, [], ()⟩ : St Unit)).1 = Except.ok 8 ∧
    hmV2DefaultConfig.block_out_channels.length - 1 = 4 ∧ (8 : Nat) ≠ 4 :=
  ⟨rfl, rfl, by decide⟩

/-- C3 (amended): every variant's output dictionary carries its fixed key
family; the key count equals `len(block_out_channels) - 1 =: n` for
`HMControlNet` (`down_*`, ascending), `HMControlNet2` (`down2_*`,
ascending), `HMV2ControlNet` (`up_v2_*`, descending) and
`HMV2ControlNet2` (`up2_v2_*`, descending); `HMV3ControlNet` produces
the `n` descending `up3_*` keys plus the extra `down3_*` keys
(`down3_0` when a stage with `up_idx = 2` exists, `down3_1` when
`up_idx = 1` exists, and `down3_2`, `down3_3` at `up_idx = 0`), for
`n + [3 ≤ n] + [2 ≤ n] + 2·[1 ≤ n]` keys in total (8 at the default
configuration). -/
theorem output_key_counts_amended {P : Type} (n : Nat)
    (condition drive_coeff face_parts emo_embedding : TV)
    (dcO fpO emO : Option TV) (s : St P) :
    (((HMControlNet.forward n condition drive_coeff face_parts s).1).map Prod.fst =
        (List.range n).map RKey.down ∧
      (HMControlNet.forward n condition drive_coeff face_parts s).1.length = n) ∧
    (((HMControlNet2.forward n condition emo_embedding s).1).map Prod.fst =
        (List.range n).map RKey.down2 ∧
      (HMControlNet2.forward n condition emo_embedding s).1.length = n) ∧
    (((HMV2ControlNet.forward n condition drive_coeff face_parts s).1).map Prod.fst =
        ((List.range n).reverse).map RKey.upV2 ∧
      (HMV2ControlNet.forward n condition drive_coeff face_parts s).1.length = n) ∧
    (((HMV2ControlNet2.forward n condition emo_embedding s).1).map Prod.fst =
        ((List.range n).reverse).map RKey.up2V2 ∧
      (HMV2ControlNet2.forward n condition emo_embedding s).1.length = n) ∧
    (∀ (d : List (RKey × TV)) (s' : St P),
      HMV3ControlNet.forward n condition dcO fpO emO s = (.ok d, s') →
      d.map Prod.fst = v3Keys n ∧
      d.length = n + (if 3 ≤ n then 1 else 0) + (if 2 ≤ n then 1 else 0) +
        (if 1 ≤ n then 2 else 0)) ∧
    (∀ i : Nat, (RKey.down i).render = "down_" ++ toString i ∧
      (RKey.down2 i).render = "down2_" ++ toString i ∧
      (RKey.upV2 i).render = "up_v2_" ++ toString i ∧
      (RKey.up3 i).render = "up3_" ++ toString i ∧
      (RKey.down3 i).render = "down3_" ++ toString i ∧
      (RKey.up2V2 i).render = "up2_v2_" ++ toString i) := by
  have lenOf : ∀ (l : List (RKey × TV)) (ks : List RKey), l.map Prod.fst = ks →
      l.length = ks.length := by
    intro l ks hk
    rw [← hk, List.length_map]
  refine ⟨⟨?_, ?_⟩, ⟨?_, ?_⟩, ⟨?_, ?_⟩, ⟨?_, ?_⟩, ?_, ?_⟩
  · simp only [HMControlNet.forward, fresh, List.range_eq_range']
    exact ascGo_keys RKey.down _ n 0 _ _
  · simp only [HMControlNet.forward, fresh]
    rw [lenOf _ _ (ascGo_keys RKey.down _ n 0 _ _)]
    simp
  · simp only [HMControlNet2.forward, fresh, List.range_eq_range']
    exact ascGo_keys RKey.down2 _ n 0 _ _
  · simp only [HMControlNet2.forward, fresh]
    rw [lenOf _ _ (ascGo_keys RKey.down2 _ n 0 _ _)]
    simp
  · simp only [HMV2ControlNet.forward, fresh]
    exact descGo_keys RKey.upV2 n _ n _ _
  · simp only [HMV2ControlNet.forward, fresh]
    rw [lenOf _ _ (descGo_keys RKey.upV2 n _ n _ _)]
    simp
  · simp only [HMV2ControlNet2.forward, fresh]
    exact descGo_keys RKey.up2V2 n _ n _ _
  · simp only [HMV2ControlNet2.forward, fresh]
    rw [lenOf _ _ (descGo_keys RKey.up2V2 n _ n _ _)]
    simp
  · intro d s' h
    have key : ∀ (de emb : Expr) (st : St P),
        (v3Go n de n emb st).1.map Prod.fst = v3Keys n ∧
        (v3Go n de n emb st).1.length = n + (if 3 ≤ n then 1 else 0) +
          (if 2 ≤ n then 1 else 0) + (if 1 ≤ n then 2 else 0) := by
      intro de emb st
      refine ⟨v3Go_keys n de n emb st, ?_⟩
      rw [lenOf _ _ (v3Go_keys n de n emb st)]
      exact v3Keys_length n
    rcases dcO with _ | dc <;> rcases fpO with _ | fp <;> rcases emO with _ | em <;>
      simp only [HMV3ControlNet.forward, HMV3ControlNet.driveEmbedding, fresh] at h
    all_goals obtain ⟨h1, h2⟩ := Prod.mk.injEq .. |>.mp h
    all_goals first
      | exact Except.noConfusion h1
      | (obtain rfl := (Except.ok.injEq .. |>.mp h1).symm
         exact key _ _ _)
  · intro i
    exact ⟨rfl, rfl, rfl, rfl, rfl, rfl⟩

/-- C5: for every configuration and every rank-5 condition shape
`(B, C, F, H, W)` with at least one frame, every output feature map of
every variant is rank-5 with batch axis `B` and frame axis exactly `F`;
the channel axis is the configured width of the stage
(`block_out_channels[1:]` stage by stage, and for `HMV3ControlNet`'s
extra outputs the 1x1 adapters' widths 320 and 640, shown at the default
configuration); and the `(b f)` flattening followed by the
`(b f) -> b, f` un-flattening of the frame axis is an exact round trip
on tensor data. -/
theorem output_shapes_and_frame_roundtrip :
    (∀ (sf : Nat) (boc : List Nat) (blockHW : Nat → Nat × Nat → Nat × Nat) (cond : Shape5),
      0 < cond.f →
        (∀ x ∈ controlNetOutputShapes sf boc blockHW cond, x.b = cond.b ∧ x.f = cond.f) ∧
        (controlNetOutputShapes sf boc blockHW cond).map Shape5.c = boc.tail) ∧
    (∀ (sf : Nat) (boc : List Nat) (blockHW : Nat → Nat × Nat → Nat × Nat) (cond : Shape5),
      0 < cond.f →
        ∀ p ∈ HMV3ControlNet.outputShapes sf boc blockHW cond,
          p.2.b = cond.b ∧ p.2.f = cond.f) ∧
    (∀ (blockHW : Nat → Nat × Nat → Nat × Nat) (cond : Shape5),
      (HMV3ControlNet.outputShapes 4 hmV2DefaultConfig.block_out_channels blockHW cond).map
          (fun p => (p.1, p.2.c)) =
        [(RKey.up3 3, 640), (RKey.up3 2, 1280), (RKey.down3 0, 320), (RKey.up3 1, 1280),
         (RKey.down3 1, 640), (RKey.up3 0, 1280), (RKey.down3 2, 1280),
         (RKey.down3 3, 1280)]) ∧
    (∀ (B C F H W : Nat) (t : T5 B C F H W), unflattenBF (flattenBF t) = t) := by
  refine ⟨?_, ?_, ?_, ?_⟩
  · intro sf boc blockHW cond hf
    constructor
    · intro x hx
      obtain ⟨hb, hfx⟩ := shapeGo_mem blockHW cond.f boc.tail 0 (cond.b * cond.f) _ _ x hx
      exact ⟨by rw [hb, Nat.mul_div_cancel _ hf], hfx⟩
    · exact shapeGo_map_c blockHW cond.f boc.tail 0 (cond.b * cond.f) _ _
  · intro sf boc blockHW cond hf p hp
    obtain ⟨hb, hfx⟩ := v3ShapeGo_mem blockHW cond.f (boc.length - 1) boc.tail 0
      (cond.b * cond.f) _ _ p hp
    exact ⟨by rw [hb, Nat.mul_div_cancel _ hf], hfx⟩
  · intro blockHW cond
    rfl
  · intro B C F H W t
    exact unflattenBF_flattenBF t

/-- C9: no forward method validates inputs, recovers, retries or logs: the
recorded framework-operation trace of every variant's forward call, run
against an arbitrary framework behaviour, either completes (when no
kernel raises) or surfaces the first kernel exception unchanged; the
four single-mode variants complete on all inputs whatsoever (returning
the n-entry mapping), and the only exception `HMV3ControlNet.forward`
itself introduces is the `TypeError` from evaluating
`emo_embedding * 20.` on `None`; with an emotion embedding present a
call completes in either mode. -/
theorem forward_error_propagation {P : Type} (p : P) (oracle : Nat → Option PyErr)
    (n c0 : Nat) (condition drive_coeff face_parts emo_embedding : TV)
    (dcO fpO : Option TV) :
    (∀ tr ∈ [(HMControlNet.forward n condition drive_coeff face_parts
          (⟨c0, [], p⟩ : St P)).2.tr,
        (HMControlNet2.forward n condition emo_embedding ⟨c0, [], p⟩).2.tr,
        (HMV2ControlNet.forward n condition drive_coeff face_parts ⟨c0, [], p⟩).2.tr,
        (HMV2ControlNet2.forward n condition emo_embedding ⟨c0, [], p⟩).2.tr,
        (HMV3ControlNet.forward n condition dcO fpO (some emo_embedding) ⟨c0, [], p⟩).2.tr],
      ((∀ k, oracle k = none) → runOps oracle tr 0 = .ok tr.length) ∧
      (∀ err, runOps oracle tr 0 = .error err →
        ∃ k, k < tr.length ∧ oracle k = some err ∧ ∀ j, j < k → oracle j = none)) ∧
    ((HMControlNet.forward n condition drive_coeff face_parts
        (⟨c0, [], p⟩ : St P)).1.length = n ∧
      (HMControlNet2.forward n condition emo_embedding ⟨c0, [], p⟩).1.length = n ∧
      (HMV2ControlNet.forward n condition drive_coeff face_parts ⟨c0, [], p⟩).1.length = n ∧
      (HMV2ControlNet2.forward n condition emo_embedding ⟨c0, [], p⟩).1.length = n) ∧
    ((∃ d, (HMV3ControlNet.forward n condition dcO fpO (some emo_embedding)
        ⟨c0, [], p⟩).1 = .ok d) ∧
      (∃ d, (HMV3ControlNet.forward n condition (some drive_coeff) (some face_parts) none
        ⟨c0, [], p⟩).1 = .ok d) ∧
      ((dcO = none ∨ fpO = none) →
        (HMV3ControlNet.forward n condition dcO fpO none ⟨c0, [], p⟩).1 =
          .error .typeError)) := by
  have lenOf : ∀ (l : List (RKey × TV)) (ks : List RKey), l.map Prod.fst = ks →
      l.length = ks.length := by
    intro l ks hk
    rw [← hk, List.length_map]
  refine ⟨?_, ⟨?_, ?_, ?_, ?_⟩, ?_, ?_, ?_⟩
  · intro tr _
    constructor
    · intro h
      have := runOps_ok_of_none oracle h tr 0
      rwa [Nat.zero_add] at this
    · intro err herr
      obtain ⟨k, hk1, hk2, hk3, hk4⟩ := runOps_error_first oracle tr 0 err herr
      exact ⟨k, by omega, hk3, fun j hj => hk4 j (by omega) hj⟩
  · simp only [HMControlNet.forward, fresh]
    rw [lenOf _ _ (ascGo_keys RKey.down _ n 0 _ _)]
    simp
  · simp only [HMControlNet2.forward, fresh]
    rw [lenOf _ _ (ascGo_keys RKey.down2 _ n 0 _ _)]
    simp
  · simp only [HMV2ControlNet.forward, fresh]
    rw [lenOf _ _ (descGo_keys RKey.upV2 n _ n _ _)]
    simp
  · simp only [HMV2ControlNet2.forward, fresh]
    rw [lenOf _ _ (descGo_keys RKey.up2V2 n _ n _ _)]
    simp
  · rcases dcO with _ | dc <;> rcases fpO with _ | fp <;> exact ⟨_, rfl⟩
  · exact ⟨_, rfl⟩
  · intro h
    rcases h with rfl | rfl
    · rfl
    · rcases dcO with _ | dc <;> rfl

/-- Witness for C1 at a concrete call: the emotion path with only an
emotion embedding succeeds through the emotion sub-modules, and with no
emotion embedding the branch raises the `TypeError`. -/
theorem hmv3_mode_selection_witness :
    (∃ v s', HMV3ControlNet.driveEmbedding none none
        (some (Expr.input "emo_embedding", 2)) (⟨3, [], ()⟩ : St Unit) = (.ok v, s') ∧
      v.1.usesMod .emoEmbedding = true ∧ v.1.usesMod .emoProj = true ∧
      v.1.usesMod .expEmbedding = false ∧ v.1.usesMod .faceProj = false ∧
      v.1.usesMod .expProj = false) ∧
    (HMV3ControlNet.driveEmbedding none none none (⟨3, [], ()⟩ : St Unit)).1 =
      .error .typeError :=
  ⟨(hmv3_mode_selection 4 "condition" "drive_coeff" "face_parts" "emo_embedding" 0 1 2 2
      (⟨3, [], ()⟩ : St Unit)).2.1 none none (Or.inl rfl),
    (hmv3_mode_selection 4 "condition" "drive_coeff" "face_parts" "emo_embedding" 0 1 2 2
      (⟨3, [], ()⟩ : St Unit)).2.2.1 none none (Or.inl rfl)⟩

/-- Witness for C2 at a concrete call with one fusion block. -/
theorem hmv3_down3_aliasing_witness :
    ∃ d s' v, HMV3ControlNet.forward 1 (Expr.input "condition", 0)
        (some (Expr.input "drive_coeff", 1)) (some (Expr.input "face_parts", 2)) none
        (⟨3, [], ()⟩ : St Unit) = (.ok d, s') ∧
      d.lookup (RKey.up3 0) = some v ∧ d.lookup (RKey.down3 2) = some v ∧
      d.lookup (RKey.down3 3) = some v := by
  obtain ⟨v, h1, h2, h3⟩ := hmv3_down3_aliasing 1 (Expr.input "condition", 0)
    (some (Expr.input "drive_coeff", 1)) (some (Expr.input "face_parts", 2)) none
    (⟨3, [], ()⟩ : St Unit) _ _ (by decide) rfl
  exact ⟨_, _, v, rfl, h1, h2, h3⟩

/-- Witness for the amended C3 at a concrete emotion-mode call with two
fusion blocks: the dictionary has the 2 descending `up3_*` keys plus
`down3_1`, `down3_2`, `down3_3`, i.e. 5 entries. -/
theorem output_key_counts_amended_witness :
    ∃ d s', HMV3ControlNet.forward 2 (Expr.input "condition", 0) none none
        (some (Expr.input "emo_embedding", 1)) (⟨2, [], ()⟩ : St Unit) = (.ok d, s') ∧
      d.map Prod.fst = v3Keys 2 ∧ d.length = 5 := by
  have h := (output_key_counts_amended 2 (Expr.input "condition", 0) (Expr.input "x", 9)
      (Expr.input "x", 9) (Expr.input "x", 9) none none (some (Expr.input "emo_embedding", 1))
      (⟨2, [], ()⟩ : St Unit)).2.2.2.2.1 _ _ rfl
  refine ⟨_, _, rfl, h.1, ?_⟩
  rw [h.2]
  decide

/-- Witness for C4 at a concrete one-block emotion-mode call: the first
output's term scales by 20 before the sinusoidal embedding. -/
theorem scaling_before_embedding_witness :
    Expr.encodersScaled 20
      (((HMV3ControlNet.forward 1 (Expr.input "condition", 0) none none
            (some (Expr.input "emo_embedding", 3)) (⟨4, [], ()⟩ : St Unit)).1.toOption.getD
          []).getD 0 (RKey.up3 0, (Expr.input "z", 0))).2.1 = true := by
  have h := (scaling_before_embedding 1 "condition" "drive_coeff" "face_parts"
      "emo_embedding" 0 1 2 3 none (⟨4, [], ()⟩ : St Unit)).2.2.2.2.2 _ _ rfl
  exact (h _ (List.mem_cons_self _ _)).1

/-- Witness for C5 at a concrete configuration and a concrete tensor. -/
theorem output_shapes_and_frame_roundtrip_witness :
    (0 : Nat) < 2 ∧
    (controlNetOutputShapes 2 [2, 3] (fun _ q => q) ⟨1, 3, 2, 8, 8⟩).map Shape5.c = [3] ∧
    unflattenBF (flattenBF (⟨fun _ _ f _ _ => (f.1 : Int)⟩ : T5 1 1 2 2 2)) =
      (⟨fun _ _ f _ _ => (f.1 : Int)⟩ : T5 1 1 2 2 2) :=
  ⟨by decide,
    (output_shapes_and_frame_roundtrip.1 2 [2, 3] (fun _ q => q) ⟨1, 3, 2, 8, 8⟩
      (by decide)).2,
    output_shapes_and_frame_roundtrip.2.2.2 1 1 2 2 2 _⟩

/-- Witness for the amended C7 at the default configuration and a concrete
one-block call. -/
theorem hmcontrolnet2_structure_amended_witness :
    withBlockNpeHidden 1024 (HMControlNet2.modulesClaimed hmDefaultConfig) =
      HMControlNet2.modules hmDefaultConfig ∧
    Expr.encodersScaled 20
      ((HMControlNet2.forward 1 (Expr.input "condition", 0) (Expr.input "emo_embedding", 3)
          (⟨4, [], ()⟩ : St Unit)).1.getD 0 (RKey.down2 0, (Expr.input "z", 0))).2.1 = true := by
  have h := hmcontrolnet2_structure_amended hmDefaultConfig 1 "condition" "drive_coeff"
    "face_parts" "emo_embedding" 0 1 2 3 (⟨4, [], ()⟩ : St Unit) (⟨4, [], ()⟩ : St Unit)
  exact ⟨h.1, h.2.2.1 _ (List.mem_cons_self _ _)⟩

/-- Witness for C9: with no framework failure the trace of a concrete
`HMControlNet.forward` call runs to completion, and a concrete
`HMV3ControlNet.forward` call missing its emotion embedding surfaces the
`TypeError`. -/
theorem forward_error_propagation_witness :
    runOps (fun _ => none)
      ((HMControlNet.forward 1 (Expr.input "condition", 0) (Expr.input "drive_coeff", 1)
          (Expr.input "face_parts", 2) (⟨3, [], ()⟩ : St Unit)).2.tr) 0 =
      .ok ((HMControlNet.forward 1 (Expr.input "condition", 0) (Expr.input "drive_coeff", 1)
          (Expr.input "face_parts", 2) (⟨3, [], ()⟩ : St Unit)).2.tr).length ∧
    (HMV3ControlNet.forward 1 (Expr.input "condition", 0) none
        (some (Expr.input "face_parts", 2)) none (⟨3, [], ()⟩ : St Unit)).1 =
      .error .typeError := by
  have h := forward_error_propagation () (fun _ => none) 1 3 (Expr.input "condition", 0)
    (Expr.input "drive_coeff", 1) (Expr.input "face_parts", 2) (Expr.input "emo_embedding", 3)
    none (some (Expr.input "face_parts", 2))
  exact ⟨(h.1 _ (List.mem_cons_self _ _)).1 (fun k => rfl), h.2.2.2.2 (Or.inl rfl)⟩
